import Mathlib

/-!
Shallow embedding of `src/review_bot.py` (AutoReviewBot) in Lean 4, together
with proofs and refutations of the specification's testable properties.

Python strings are modelled as Lean `String`; Python runtime exceptions
(`TypeError`, `KeyError`, ...) are modelled with an explicit error type and
`Except`; Python `dict` objects keyed by `int` are modelled as insertion-order
association lists with overwrite-on-repeated-key semantics, matching the
observable behaviour of the source.
-/

set_option autoImplicit false

/-- Python runtime exceptions that the modelled code paths can raise. -/
inductive PyErr where
  /-- `TypeError`, e.g. `None += 1`. -/
  | typeError
  /-- `ValueError`, e.g. `int()` applied to a non-numeric string. -/
  | valueError
  /-- `IndexError`, e.g. `hunk[2]` on a short list. -/
  | indexError
  /-- `KeyError`, e.g. `v["line"]` on a dict without that key. -/
  | keyError (k : String)
  /-- `raise Exception(msg)`. -/
  | exception (msg : String)
deriving DecidableEq

/-- Python `s.split(sep)` for a one-character separator, on the character
list: keeps empty fields, and `"".split(sep) == [""]`. -/
def splitCharList (sep : Char) : List Char → List (List Char)
  | [] => [[]]
  | c :: rest =>
    if c = sep then [] :: splitCharList sep rest
    else
      match splitCharList sep rest with
      | h :: t => (c :: h) :: t
      | [] => [[c]]

/-- Python `s.split(sep)` for a one-character separator, on strings. -/
def pySplit (sep : Char) (s : String) : List String :=
  (splitCharList sep s.data).map String.mk

/-- Python `s.startswith(p)`. -/
def pyStartsWith (s p : String) : Bool :=
  p.data.isPrefixOf s.data

/-- Python `s.replace(c, "")` for a one-character pattern: deletes every
occurrence of the character. -/
def removeAll (c : Char) (s : String) : String :=
  String.mk (s.data.filter (fun a => a != c))

/-- Value of a non-empty all-digit character list, else `none`. -/
def digitsVal? (l : List Char) : Option Nat :=
  match l with
  | [] => none
  | _ =>
    l.foldl
      (fun acc c =>
        match acc with
        | none => none
        | some n => if c.isDigit then some (n * 10 + (c.toNat - 48)) else none)
      (some 0)

/-- Python `int(s)` restricted to the shapes reachable here: an optional
leading minus sign followed by decimal digits; anything else raises
`ValueError` (modelled as `none`). -/
def pyInt? (s : String) : Option Int :=
  match s.data with
  | '-' :: rest => (digitsVal? rest).map (fun n => -(n : Int))
  | l => (digitsVal? l).map (fun n => (n : Int))

/-- Python dict lookup `m.get(k)` on an association list. -/
def dictGet (m : List (Int × Nat)) (k : Int) : Option Nat :=
  match m with
  | [] => none
  | (k', v) :: rest => if k' = k then some v else dictGet rest k

/-- Python dict assignment `m[k] = v` on an association list: overwrite in
place when the key exists, else append. -/
def dictSet (m : List (Int × Nat)) (k : Int) (v : Nat) : List (Int × Nat) :=
  match m with
  | [] => [(k, v)]
  | (k', v') :: rest => if k' = k then (k, v) :: rest else (k', v') :: dictSet rest k v

/-- Extraction of the new-file start line from a hunk header, as written in
`get_pr_diff_positions`: `int(line.split(" ")[2].split(",")[0].replace("+", ""))`.
`hunk[2]` raises `IndexError` when the header has fewer than three
space-separated fields; `int` raises `ValueError` on a non-numeric field.
`split(",")` always yields a non-empty list, so its `[0]` cannot fail. -/
def parse_hunk_new_start (line : String) : Except PyErr Int :=
  match (pySplit ' ' line)[2]? with
  | none => Except.error PyErr.indexError
  | some p =>
    match pyInt? (removeAll '+' ((pySplit ',' p).headD "")) with
    | none => Except.error PyErr.valueError
    | some n => Except.ok n

/-- The per-line scan of `get_pr_diff_positions`. State: `position` is the
running patch-line counter (incremented for every scanned line, headers
included), `new_line` is the current new-file line number (`None` until the
first hunk header, modelled as `Option Int`), `m` the accumulated dict.
On a hunk header, set `new_line = c - 1`; on a `+` line, increment `new_line`
and record `new_line → position`; on a `-` line, change nothing else; on any
other line (context), increment `new_line` only. An arithmetic step on
`new_line = None` raises `TypeError`, exactly as `None += 1` does. -/
def scan_patch : List String → Nat → Option Int → List (Int × Nat) →
    Except PyErr (List (Int × Nat))
  | [], _, _, m => Except.ok m
  | line :: rest, position, new_line, m =>
    let position := position + 1
    if pyStartsWith line "@@" then
      match parse_hunk_new_start line with
      | Except.error e => Except.error e
      | Except.ok c => scan_patch rest position (some (c - 1)) m
    else if pyStartsWith line "+" then
      match new_line with
      | none => Except.error PyErr.typeError
      | some nl => scan_patch rest position (some (nl + 1)) (dictSet m (nl + 1) position)
    else if pyStartsWith line "-" then
      scan_patch rest position new_line m
    else
      match new_line with
      | none => Except.error PyErr.typeError
      | some nl => scan_patch rest position (some (nl + 1)) m

/-- Scan of one file's patch text: `for line in file.get("patch", "").split("\n")`
with `position = 0`, `new_line = None`, `diff_map = {}` initially. -/
def resolve_patch (patch : String) : Except PyErr (List (Int × Nat)) :=
  scan_patch (pySplit '\n' patch) 0 none []

/-- Embedding of `get_pr_diff_positions`. The HTTP response is an input:
its status code and its JSON body, the latter a list of file entries
`(filename, optional patch)`. A non-200 status raises
`Exception("Failed to fetch PR files")`. Otherwise the loop skips entries
whose `filename` differs from `file_path`, scans the first match, and
`break`s; no match leaves the dict empty. An absent `patch` key defaults to
the empty string. -/
def get_pr_diff_positions (status_code : Nat) (files : List (String × Option String))
    (file_path : String) : Except PyErr (List (Int × Nat)) :=
  if status_code ≠ 200 then
    Except.error (PyErr.exception "Failed to fetch PR files")
  else
    match files.find? (fun f => f.1 == file_path) with
    | none => Except.ok []
    | some (_, patch) => resolve_patch (patch.getD "")

/-- An oracle-returned violation record: a JSON object whose fields may each
be absent. `v["k"]` on an absent field raises `KeyError`; `v.get("k")`
yields `None`. -/
structure VioRecord where
  rule : Option String
  line : Option Int
  explanation : Option String
  suggestion : Option String
  severity : Option String
  code_fix : Option String
  file : Option String
deriving DecidableEq

/-- Record update `v["file"] = f`. -/
def setFile (v : VioRecord) (f : String) : VioRecord :=
  ⟨v.rule, v.line, v.explanation, v.suggestion, v.severity, v.code_fix, some f⟩

/-- Python `v.get("file") or fallback`: the fallback is used when the field
is absent (`None`) or falsy (the empty string). -/
def or_default (o : Option String) (fallback : String) : String :=
  match o with
  | none => fallback
  | some f => if f = "" then fallback else f

/-- Payload of one `POST /pulls/{pr}/comments` request built by
`post_inline_comment(repo, pr_number, body, commit_id, path, position)`;
the repo and PR number address the URL and are omitted. -/
structure InlineCommentPayload where
  body : String
  commit_id : String
  path : String
  position : Int
deriving DecidableEq

/-- Embedding of `post_inline_comment`: the JSON payload it posts. -/
def post_inline_comment (body commit_id path : String) (position : Int) :
    InlineCommentPayload :=
  ⟨body, commit_id, path, position⟩

/-- Payload of one `POST /statuses/{sha}` request. -/
structure StatusPayload where
  state : String
  description : String
  context : String
deriving DecidableEq

/-- Embedding of `post_status`: the payload always carries the fixed
context label `"AutoReviewBot"`. -/
def post_status (state description : String) : StatusPayload :=
  ⟨state, description, "AutoReviewBot"⟩

/-- Inline-comment body built in the main loop:
`f"**{v['rule']}**\n\n{v['explanation']}\n\n💡 Suggestion: {v['suggestion']}\n\n```java\n{v.get('code_fix', '// no fix provided')}\n```"`.
The subscript accesses are evaluated left to right, so the first absent
field among `rule`, `explanation`, `suggestion` raises its `KeyError`;
`code_fix` uses `.get` with the placeholder default. -/
def build_body (v : VioRecord) : Except PyErr String :=
  match v.rule with
  | none => Except.error (PyErr.keyError "rule")
  | some r =>
    match v.explanation with
    | none => Except.error (PyErr.keyError "explanation")
    | some e =>
      match v.suggestion with
      | none => Except.error (PyErr.keyError "suggestion")
      | some s =>
        Except.ok ("**" ++ r ++ "**\n\n" ++ e ++ "\n\n💡 Suggestion: " ++ s ++
          "\n\n```java\n" ++ v.code_fix.getD "// no fix provided" ++ "\n```")

/-- One iteration of the main loop's `for v in violations` body, lines
272-285 of the source. Inputs: `m` is the value the loop reads from the
name `diff_positions` (never assigned in the active code; the embedding
takes it as a parameter), `sha` the commit id, `fallback_file` is
`batch[0][0]`, `violations_total` the accumulator. Steps, in source order:
`file_path = v.get("file") or batch[0][0]`; `v["file"] = file_path`;
`violations_total.append(v)`; `position = diff_positions.get(v["line"])`
(raising `KeyError` when `line` is absent); when `position` is truthy,
build the body and call
`post_inline_comment(GITHUB_REPO, PR_NUMBER, body, GITHUB_SHA, file_path, v["line"])`
— note the last argument is the raw line number, not `position` — inside a
`try` whose `except` only prints, so a `KeyError` from the body is
swallowed and no comment is posted; when `position` is `None` (or `0`),
print a warning and post nothing. The returned pair is the new accumulator
(the append precedes every failure point) and the outcome: `some payload`
when an inline comment was posted, `none` when not, `error` when the
iteration raises. -/
def process_violation (m : List (Int × Nat)) (sha fallback_file : String)
    (violations_total : List VioRecord) (v : VioRecord) :
    List VioRecord × Except PyErr (Option InlineCommentPayload) :=
  let file_path := or_default v.file fallback_file
  let v2 := setFile v file_path
  let outcome : Except PyErr (Option InlineCommentPayload) :=
    match v2.line with
    | none => Except.error (PyErr.keyError "line")
    | some line =>
      match dictGet m line with
      | some p =>
        if p ≠ 0 then
          match build_body v2 with
          | Except.ok body => Except.ok (some (post_inline_comment body sha file_path line))
          | Except.error _ => Except.ok none
        else Except.ok none
      | none => Except.ok none
  (violations_total ++ [v2], outcome)

/-- What one oracle attempt would come back with: either the API call or
`json.loads` raises, or parsing succeeds with a list of records. -/
inductive LLMOutcome where
  | raises
  | returns (vs : List VioRecord)
deriving DecidableEq

/-- Embedding of `call_llm`: its body is one `try`/`except` with no loop,
no sleep and no re-entry. `first` is what the single attempt comes back
with; `_retries_available` is the stream of outcomes further attempts would
observe, and is never consumed. The result pairs the returned value (`[]`
on any exception, the parsed value otherwise) with the number of attempts
made. -/
def call_llm (first : LLMOutcome) (_retries_available : List LLMOutcome) :
    List VioRecord × Nat :=
  match first with
  | LLMOutcome.raises => ([], 1)
  | LLMOutcome.returns vs => (vs, 1)

/-- A Python value that is either `None` or a string: the value space of
`redact_sensitive_content`. -/
inductive PyVal where
  | none
  | str (s : String)
deriving DecidableEq

/-- The regex pattern list built (and then discarded) by the effective
definition of `redact_sensitive_content`, transcribed with `\x27` for the
apostrophe and `\x7b`/`\x7d` for the braces. -/
def redact_patterns : List String :=
  ["(API[_-]?KEY\\s*=\\s*[\x27\"]?[A-Za-z0-9_\\-]+[\x27\"]?)",
   "(BEARER\\s+[A-Za-z0-9\\.\\-_]+)",
   "(PASSWORD\\s*=\\s*[\x27\"]?.+?[\x27\"]?)",
   "(AWS[_-]SECRET[_-]ACCESS[_-]KEY\\s*=\\s*[\x27\"]?[A-Za-z0-9/\\+=]+[\x27\"]?)",
   "([\x27\"]?ghp_[A-Za-z0-9]\x7b30,\x7d[\x27\"]?)"]

/-- Embedding of `redact_sensitive_content` as it is in effect at every
call site: the second definition (line 57) shadows the first, its body only
binds the local pattern list and has no `return` statement, so the call
returns `None` for every argument. -/
def redact_sensitive_content (_text : PyVal) : PyVal :=
  let _patterns := redact_patterns
  PyVal.none

/-- Embedding of `batch_files`' loop. Arguments mirror the locals
`batches`, `current_batch`, `current_size`; `max_chars` is the cap. -/
def batch_files_go (max_chars : Nat) :
    List (String × String) → List (List (String × String)) →
    List (String × String) → Nat → List (List (String × String))
  | [], batches, current_batch, _ =>
    if current_batch = [] then batches else batches ++ [current_batch]
  | (file, diff) :: rest, batches, current_batch, current_size =>
    let size := diff.length
    if current_size + size > max_chars ∧ current_batch ≠ [] then
      batch_files_go max_chars rest (batches ++ [current_batch]) [(file, diff)] size
    else
      batch_files_go max_chars rest batches (current_batch ++ [(file, diff)]) (current_size + size)

/-- Embedding of `batch_files(files_diffs, max_chars)`: greedy packing that
closes the current batch when the next file would push it over the cap and
the batch is non-empty, and flushes the leftover batch at the end. -/
def batch_files (files_diffs : List (String × String)) (max_chars : Nat) :
    List (List (String × String)) :=
  batch_files_go max_chars files_diffs [] [] 0

/-- Total diff length of one batch: the sum of its members' diff lengths. -/
def batch_size (b : List (String × String)) : Nat :=
  (b.map (fun p => p.2.length)).sum

/-- The generator `any(v["severity"] == "error" for v in violations_total)`:
short-circuits at the first `"error"`, and raises `KeyError` when it reaches
a record with no `severity` field. -/
def any_severity_error : List VioRecord → Except PyErr Bool
  | [] => Except.ok false
  | v :: rest =>
    match v.severity with
    | none => Except.error (PyErr.keyError "severity")
    | some s => if s = "error" then Except.ok true else any_severity_error rest

/-- The final `post_status` call of the main block: state `"failure"` with
description `"Critical rule violations found"` when some collected
violation has severity `"error"`, else `"success"` with
`"All checks passed"`. -/
def final_status (violations_total : List VioRecord) : Except PyErr StatusPayload :=
  match any_severity_error violations_total with
  | Except.error e => Except.error e
  | Except.ok b =>
    Except.ok (post_status (if b then "failure" else "success")
      (if b then "Critical rule violations found" else "All checks passed"))

/-- Sample record carrying every schema field except `file` and with no
code fix; its line `5` is used against the position map `[(5, 2)]`. -/
def v_line5 : VioRecord :=
  ⟨some "R1", some 5, some "x", some "y", some "warning", none, none⟩

/-- Record with every field absent. -/
def v_empty : VioRecord :=
  ⟨none, none, none, none, none, none, none⟩

/-- Record with every required field except `line`. -/
def v_noline : VioRecord :=
  ⟨some "R1", none, some "x", some "y", some "info", none, none⟩

/-- Record with severity `"error"`. -/
def v_err : VioRecord :=
  ⟨some "R2", some 3, some "e", some "s", some "error", none, none⟩

/-- Record with severity `"warning"`. -/
def v_warn : VioRecord :=
  ⟨some "R3", some 7, some "e2", some "s2", some "warning", none, none⟩

/-- Claim C1: the claim says a file with zero hunks or an absent `patch`
field yields an empty mapping. On the code, both cases raise `TypeError`:
`file.get("patch", "")` defaults to `""`, whose split is the single empty
line, which takes the context branch and executes `new_line += 1` while
`new_line` is still `None`. The author's explicit `.get` default shows the
graceful-handling intent, so this is a bug in the code, at the exact inputs
the claim names. -/
theorem c1_empty_patch_raises_typeerror :
    get_pr_diff_positions 200 [("Foo.java", none)] "Foo.java" =
      Except.error PyErr.typeError ∧
    get_pr_diff_positions 200 [("Foo.java", some "")] "Foo.java" =
      Except.error PyErr.typeError := ⟨rfl, rfl⟩

/-- Claim C2: at a violation whose line `5` has position token `2` in the
resolver's mapping `[(5, 2)]`, the emitted inline comment's `position`
argument is `5` — the raw line number — not the mapping's token `2`, even
though the body is built as the claim describes. The loop computes
`position = diff_positions.get(v["line"])`, tests it, and then discards it,
passing `v["line"]` to `post_inline_comment`. -/
theorem c2_raw_line_passed_as_position :
    (process_violation [(5, 2)] "sha0" "Foo.java" [] v_line5).2 =
      Except.ok (some (post_inline_comment
        "**R1**\n\nx\n\n💡 Suggestion: y\n\n```java\n// no fix provided\n```"
        "sha0" "Foo.java" 5)) ∧
    dictGet [(5, 2)] 5 = some 2 := ⟨rfl, rfl⟩

/-- Claim C5, counterexample: with the single attempt failing and a further
attempt available that would return a violation, `call_llm` still stops
after exactly one attempt and returns `[]` — no retry, no delay, so the
claimed retry-up-to-3-times behaviour does not exist in the code. -/
theorem c5_counterexample_no_retry :
    call_llm LLMOutcome.raises [LLMOutcome.returns [v_line5]] = ([], 1) := rfl

/-- Claim C5, amended: `call_llm` makes exactly one attempt; a transport or
parse failure immediately yields the empty list (a recoverable degradation,
not an exception), and a successful parse yields the parsed value. -/
theorem c5_single_attempt_never_raises (rest : List LLMOutcome) (vs : List VioRecord) :
    call_llm LLMOutcome.raises rest = ([], 1) ∧
    call_llm (LLMOutcome.returns vs) rest = (vs, 1) := ⟨rfl, rfl⟩

/-- Claim C6, counterexample: a record missing every required field is not
dropped — it is appended to `violations_total` (the list that feeds the
summary comment and the final status) before any field is read, and the
iteration then raises `KeyError("line")` instead of logging a warning. -/
theorem c6_counterexample_not_dropped :
    (process_violation [] "sha0" "Foo.java" [] v_empty).1 =
      [setFile v_empty "Foo.java"] ∧
    (process_violation [] "sha0" "Foo.java" [] v_empty).2 =
      Except.error (PyErr.keyError "line") := ⟨rfl, rfl⟩

/-- Claim C6, amended: the loop performs no validation at all — every
oracle-returned record, whatever fields it lacks, is appended to
`violations_total` before any required field is read, and a record missing
`line` then raises `KeyError("line")` (aborting the run) rather than being
dropped with a warning. -/
theorem c6_unvalidated_append (m : List (Int × Nat)) (sha fb : String)
    (vt : List VioRecord) (v : VioRecord) :
    (process_violation m sha fb vt v).1 = vt ++ [setFile v (or_default v.file fb)] ∧
    (v.line = none → (process_violation m sha fb vt v).2 =
      Except.error (PyErr.keyError "line")) := by
  refine ⟨rfl, fun hl => ?_⟩
  simp [process_violation, setFile, hl]

/-- Claim C6, witness for the amended statement at a record having every
required field except `line`. -/
theorem c6_witness :
    (process_violation [] "sha1" "Bar.java" [] v_noline).1 =
      [setFile v_noline (or_default v_noline.file "Bar.java")] ∧
    (process_violation [] "sha1" "Bar.java" [] v_noline).2 =
      Except.error (PyErr.keyError "line") :=
  ⟨(c6_unvalidated_append [] "sha1" "Bar.java" [] v_noline).1,
   (c6_unvalidated_append [] "sha1" "Bar.java" [] v_noline).2 rfl⟩

/-- Claim C8: redaction is idempotent. This holds, though degenerately: the
definition of `redact_sensitive_content` in effect at every call site has
no `return` statement, so it maps every input — already-redacted text
included — to `None`, and the two sides are both `None`. -/
theorem c8_redact_idempotent (t : PyVal) :
    redact_sensitive_content (redact_sensitive_content t) =
      redact_sensitive_content t := rfl

/-- Splitting one batch off preserves the concatenation of all batches. -/
theorem batch_files_go_join (max_chars : Nat) (fs : List (String × String)) :
    ∀ (batches : List (List (String × String))) (current : List (String × String))
      (size : Nat),
      (batch_files_go max_chars fs batches current size).flatten =
        batches.flatten ++ current ++ fs := by
  induction fs with
  | nil =>
    intro batches current size
    by_cases h : current = [] <;>
      simp [batch_files_go, h, List.flatten_append]
  | cons hd rest ih =>
    intro batches current size
    obtain ⟨f, d⟩ := hd
    simp only [batch_files_go]
    by_cases h : size + d.length > max_chars ∧ current ≠ []
    · rw [if_pos h, ih]
      simp [List.flatten_append]
    · rw [if_neg h, ih]
      simp

/-- Claim C4: batching is lossless and order-preserving — concatenating the
batches in order returns exactly the input sequence of (path, diff) pairs;
nothing is duplicated, omitted or reordered, and no diff text is altered. -/
theorem c4_batches_lossless (fs : List (String × String)) (max_chars : Nat) :
    (batch_files fs max_chars).flatten = fs := by
  simpa using batch_files_go_join max_chars fs [] [] 0

/-- Invariant of the packing loop: if every closed batch is non-empty and
within the cap (or an oversized singleton), and the open batch is within
the cap (or an oversized singleton) whenever non-empty, then every batch of
the final result has that shape. The `size` accumulator always equals the
open batch's total length, which the statement bakes in. -/
theorem batch_files_go_sound (max_chars : Nat) (fs : List (String × String)) :
    ∀ (batches : List (List (String × String))) (current : List (String × String)),
      (∀ b ∈ batches,
        b ≠ [] ∧ (batch_size b ≤ max_chars ∨ ∃ p, b = [p] ∧ max_chars < p.2.length)) →
      (current ≠ [] →
        batch_size current ≤ max_chars ∨ ∃ p, current = [p] ∧ max_chars < p.2.length) →
      ∀ b ∈ batch_files_go max_chars fs batches current (batch_size current),
        b ≠ [] ∧ (batch_size b ≤ max_chars ∨ ∃ p, b = [p] ∧ max_chars < p.2.length) := by
  induction fs with
  | nil =>
    intro batches current hb hc b hmem
    simp only [batch_files_go] at hmem
    by_cases h : current = []
    · rw [if_pos h] at hmem
      exact hb b hmem
    · rw [if_neg h] at hmem
      rcases List.mem_append.mp hmem with h1 | h1
      · exact hb b h1
      · simp only [List.mem_singleton] at h1
        subst h1
        exact ⟨h, hc h⟩
  | cons hd rest ih =>
    intro batches current hb hc b hmem
    obtain ⟨f, d⟩ := hd
    simp only [batch_files_go] at hmem
    by_cases h : batch_size current + d.length > max_chars ∧ current ≠ []
    · rw [if_pos h] at hmem
      have hsz : d.length = batch_size [(f, d)] := by simp [batch_size]
      rw [hsz] at hmem
      refine ih (batches ++ [current]) [(f, d)] ?_ ?_ b hmem
      · intro b' hb'
        rcases List.mem_append.mp hb' with h1 | h1
        · exact hb b' h1
        · simp only [List.mem_singleton] at h1
          subst h1
          exact ⟨h.2, hc h.2⟩
      · intro _
        rcases le_or_lt d.length max_chars with hle | hlt
        · exact Or.inl (by simpa [batch_size] using hle)
        · exact Or.inr ⟨(f, d), rfl, hlt⟩
    · rw [if_neg h] at hmem
      have hsz : batch_size current + d.length = batch_size (current ++ [(f, d)]) := by
        simp [batch_size]
      rw [hsz] at hmem
      refine ih batches (current ++ [(f, d)]) hb ?_ b hmem
      intro _
      by_cases hcur : current = []
      · subst hcur
        rcases le_or_lt d.length max_chars with hle | hlt
        · exact Or.inl (by simpa [batch_size] using hle)
        · exact Or.inr ⟨(f, d), rfl, hlt⟩
      · left
        have hle : batch_size current + d.length ≤ max_chars := by
          rcases not_and_or.mp h with h1 | h1
          · omega
          · exact absurd (not_not.mp h1) hcur
        omega

/-- Claim C3: every batch produced by `batch_files` is non-empty and its
total diff length is at most `max_chars`, except that a batch may be a
singleton holding one file whose own diff length exceeds `max_chars`; and
every such oversized input file does appear as a singleton batch, intact. -/
theorem c3_capacity_respecting (fs : List (String × String)) (max_chars : Nat) :
    (∀ b ∈ batch_files fs max_chars,
        b ≠ [] ∧ (batch_size b ≤ max_chars ∨ ∃ p, b = [p] ∧ max_chars < p.2.length)) ∧
    (∀ p ∈ fs, max_chars < p.2.length → [p] ∈ batch_files fs max_chars) := by
  constructor
  · intro b hmem
    exact batch_files_go_sound max_chars fs [] []
      (by simp) (by simp) b hmem
  · intro p hp hlen
    have hjoin : (batch_files fs max_chars).flatten = fs := by
      simpa using batch_files_go_join max_chars fs [] [] 0
    rw [← hjoin] at hp
    rcases List.mem_flatten.mp hp with ⟨b, hbmem, hpb⟩
    rcases batch_files_go_sound max_chars fs [] []
      (by simp) (by simp) b hbmem with ⟨hne, hgood⟩
    rcases hgood with hle | ⟨q, hq, hqlen⟩
    · exfalso
      have hmm : p.2.length ∈ b.map (fun r => r.2.length) :=
        List.mem_map_of_mem _ hpb
      have : p.2.length ≤ batch_size b :=
        List.single_le_sum (fun x _ => Nat.zero_le x) _ hmm
      omega
    · subst hq
      simp only [List.mem_singleton] at hpb
      subst hpb
      exact hbmem

/-- Claim C3, witness: with the cap 3, the input `("a","xx"), ("b","yyyy")`
yields the batch `[("a","xx")]` (non-empty and within the cap) and the
oversized file `("b","yyyy")` as its own singleton batch. -/
theorem c3_witness :
    ([("a", "xx")] ≠ ([] : List (String × String)) ∧
      (batch_size [("a", "xx")] ≤ 3 ∨
        ∃ p, [("a", "xx")] = [p] ∧ 3 < p.2.length)) ∧
    [("b", "yyyy")] ∈ batch_files [("a", "xx"), ("b", "yyyy")] 3 :=
  ⟨(c3_capacity_respecting [("a", "xx"), ("b", "yyyy")] 3).1 [("a", "xx")] (by decide),
   (c3_capacity_respecting [("a", "xx"), ("b", "yyyy")] 3).2 ("b", "yyyy")
     (by decide) (by decide)⟩

/-- A line classified as added (it starts with `+`) is not classified as a
hunk header, since its first character is `+`, not `@`. -/
theorem pyStartsWith_plus_not_header (s : String)
    (h : pyStartsWith s "+" = true) : pyStartsWith s "@@" = false := by
  obtain ⟨data⟩ := s
  have h' : List.isPrefixOf ['+'] data = true := h
  show List.isPrefixOf ['@', '@'] data = false
  cases data with
  | nil => simp [List.isPrefixOf] at h'
  | cons a t =>
    have ha : a = '+' := by
      simp [List.isPrefixOf] at h'
      exact h'.symm
    subst ha
    simp [List.isPrefixOf]

/-- Claim C7: on a patch whose split is exactly a hunk header (a line
starting with `@@` whose third space-separated field parses to the
new-file start `c`) followed by one added line, the resolver records that
added line under key `c` — with position token 2, the added line being the
second patch line. -/
theorem c7_single_added_line_at_c (patch header added : String) (c : Int)
    (hsplit : pySplit '\n' patch = [header, added])
    (hhdr : pyStartsWith header "@@" = true)
    (hparse : parse_hunk_new_start header = Except.ok c)
    (hadd : pyStartsWith added "+" = true) :
    resolve_patch patch = Except.ok [(c, 2)] := by
  have hna := pyStartsWith_plus_not_header added hadd
  unfold resolve_patch
  rw [hsplit]
  simp [scan_patch, hhdr, hparse, hna, hadd, dictSet, sub_add_cancel]

/-- Claim C7, witness at the patch `"@@ -1,3 +5,2 @@\n+x"`, whose header
names new-file start 5: the added line is recorded under key 5. -/
theorem c7_witness :
    resolve_patch "@@ -1,3 +5,2 @@\n+x" = Except.ok [(5, 2)] :=
  c7_single_added_line_at_c "@@ -1,3 +5,2 @@\n+x" "@@ -1,3 +5,2 @@" "+x" 5
    rfl rfl rfl rfl

/-- When every record carries a severity, the `any(...)` generator returns
whether some record's severity is `"error"`. -/
theorem any_severity_error_ok (vs : List VioRecord)
    (h : ∀ v ∈ vs, v.severity ≠ none) :
    any_severity_error vs =
      Except.ok (vs.any fun v => v.severity == some "error") := by
  induction vs with
  | nil => rfl
  | cons v rest ih =>
    obtain ⟨s, hs⟩ : ∃ s, v.severity = some s := by
      cases hv : v.severity with
      | none => exact absurd hv (h v (by simp))
      | some s => exact ⟨s, rfl⟩
    have hrest : ∀ w ∈ rest, w.severity ≠ none := fun w hw => h w (by simp [hw])
    by_cases hse : s = "error"
    · subst hse
      simp [any_severity_error, hs]
    · simp [any_severity_error, hs, hse, ih hrest]

/-- Claim C9: when every collected violation carries a severity field, the
final status is published, its state is `"failure"` exactly when some
collected violation has severity `"error"` and `"success"` otherwise, and
it carries the fixed context label `"AutoReviewBot"`. -/
theorem c9_final_status (vs : List VioRecord)
    (h : ∀ v ∈ vs, v.severity ≠ none) :
    ∃ p, final_status vs = Except.ok p ∧
      (p.state = "failure" ↔ ∃ v ∈ vs, v.severity = some "error") ∧
      (p.state = "failure" ∨ p.state = "success") ∧
      p.context = "AutoReviewBot" := by
  have ha := any_severity_error_ok vs h
  by_cases hb : (vs.any fun v => v.severity == some "error") = true
  · refine ⟨post_status "failure" "Critical rule violations found", ?_, ?_, Or.inl rfl, rfl⟩
    · simp [final_status, ha, hb]
    · constructor
      · intro _
        rcases List.any_eq_true.mp hb with ⟨v, hv, hsev⟩
        exact ⟨v, hv, by simpa using hsev⟩
      · intro _
        rfl
  · refine ⟨post_status "success" "All checks passed", ?_, ?_, Or.inr rfl, rfl⟩
    · simp [final_status, ha, hb]
    · constructor
      · intro hcontra
        exact absurd hcontra (by decide)
      · intro ⟨v, hv, hsev⟩
        exact absurd (List.any_eq_true.mpr ⟨v, hv, by simpa using hsev⟩) hb

/-- Claim C9, witness: with one `"error"`-severity violation and one
`"warning"`-severity violation collected, the published state is
`"failure"` with context `"AutoReviewBot"`. -/
theorem c9_witness :
    ∃ p, final_status [v_err, v_warn] = Except.ok p ∧
      (p.state = "failure" ↔ ∃ v ∈ [v_err, v_warn], v.severity = some "error") ∧
      (p.state = "failure" ∨ p.state = "success") ∧
      p.context = "AutoReviewBot" :=
  c9_final_status [v_err, v_warn] (by decide)

/-- Claim C10: whenever the request listing the pull request's files comes
back with any status other than 200, `get_pr_diff_positions` raises
`Exception("Failed to fetch PR files")` — for every response body and every
file path — instead of returning an empty mapping, so the failure
propagates to the caller. -/
theorem c10_fetch_failure_raises (status_code : Nat)
    (files : List (String × Option String)) (file_path : String)
    (h : status_code ≠ 200) :
    get_pr_diff_positions status_code files file_path =
      Except.error (PyErr.exception "Failed to fetch PR files") := by
  simp [get_pr_diff_positions, h]

/-- Claim C10, witness at status 404. -/
theorem c10_witness :
    get_pr_diff_positions 404 [("Main.java", some "@@ -1,1 +1,1 @@")] "Main.java" =
      Except.error (PyErr.exception "Failed to fetch PR files") :=
  c10_fetch_failure_raises 404 [("Main.java", some "@@ -1,1 +1,1 @@")] "Main.java"
    (by decide)
